import Mathlib

/-!
Verification development for the incremental market-data ETL pipeline
(extractor / transformer / loader / freshness oracle / orchestrator).

The Python source is shallowly embedded: pure functions become Lean
functions, the effectful collaborator calls of the orchestrator (database
queries, the network fetch, the batch load) become explicit outcome values
threaded through a `RunEnv` record, Python `date` objects become a
proleptic-Gregorian calendar-date structure whose ordering and subtraction
are computed through a day count, `Decimal` prices become rationals, and
Python exceptions become `Except` values caught at the per-ticker boundary
exactly where the source's `try`/`except` sits.
-/

namespace ETL

/-! ## Calendar dates (embedding of Python `datetime.date`)

A date is a year/month/day triple.  `toDays` is the proleptic Gregorian
day number with `0001-01-01 ↦ 0`; Python's `date` ordering, subtraction
(`(a - b).days`) and `weekday()` (Monday = 0 … Sunday = 6) are all
definable from it, since 0001-01-01 is a Monday. -/

structure Date where
  year : Nat
  month : Nat
  day : Nat
deriving DecidableEq, Repr

def isLeapYear (y : Nat) : Bool :=
  (y % 4 == 0 && y % 100 != 0) || y % 400 == 0

def daysInMonth (y m : Nat) : Nat :=
  if m = 1 then 31
  else if m = 2 then (if isLeapYear y then 29 else 28)
  else if m = 3 then 31
  else if m = 4 then 30
  else if m = 5 then 31
  else if m = 6 then 30
  else if m = 7 then 31
  else if m = 8 then 31
  else if m = 9 then 30
  else if m = 10 then 31
  else if m = 11 then 30
  else 31

/-- Day of year (1-based): days in the months before `m`, plus `d`. -/
def dayOfYear (y m d : Nat) : Nat :=
  (List.range (m - 1)).foldl (fun acc i => acc + daysInMonth y (i + 1)) 0 + d

/-- Proleptic Gregorian day count, `0001-01-01 ↦ 0`. -/
def toDays (dt : Date) : Nat :=
  let p := dt.year - 1
  365 * p + p / 4 - p / 100 + p / 400 + (dayOfYear dt.year dt.month dt.day - 1)

/-- Python `date.weekday()`: Monday = 0, …, Sunday = 6
(0001-01-01 is a Monday). -/
def weekday (dt : Date) : Nat := toDays dt % 7

/-- A syntactically valid calendar date (what `datetime.date` can hold). -/
def Date.valid (dt : Date) : Prop :=
  1 ≤ dt.year ∧ dt.year ≤ 9999 ∧ 1 ≤ dt.month ∧ dt.month ≤ 12 ∧
    1 ≤ dt.day ∧ dt.day ≤ daysInMonth dt.year dt.month

instance (dt : Date) : Decidable dt.valid := by
  unfold Date.valid; infer_instance

/-- Zero-pad `n` on the left to width `w` (digits of `toString n`). -/
def padNum (w n : Nat) : String :=
  let s := toString n
  String.mk (List.replicate (w - s.length) '0') ++ s

/-- Embedding of Python `str(date)`: ISO format `YYYY-MM-DD`. -/
def dateStr (dt : Date) : String :=
  padNum 4 dt.year ++ "-" ++ padNum 2 dt.month ++ "-" ++ padNum 2 dt.day

/-! ## Freshness oracle: `ETLPipeline._should_skip_ticker`

The database query for the latest stored date is the caller's business;
the decision logic on `(latest stored date, today)` is embedded here
verbatim from `pipeline.py` lines 45-75. -/

/-- Decision logic of `_should_skip_ticker` after the `latest_date`
query: returns `(should_skip, reason)`. -/
def should_skip_decision (latest : Option Date) (today : Date) :
    Bool × String :=
  match latest with
  | none => (false, "initial_load")
  | some d =>
    let daysSince : Int := (toDays today : Int) - (toDays d : Int)
    if daysSince ≤ 1 then
      (true, "data_current_last_update_" ++ dateStr d)
    else if weekday today = 5 ∨ weekday today = 6 then
      if (toDays d : Int) ≥ (toDays today : Int) - ((weekday today : Int) - 4)
      then (true, "weekend_data_current_" ++ dateStr d)
      else (false, "needs_update_last_update_" ++ dateStr d)
    else (false, "needs_update_last_update_" ++ dateStr d)

/-! ## Transformer: `DataTransformer` (`transformer.py`)

Raw provider entries are date-keyed maps of decimal-string fields.  The
per-entry parse embeds `strptime(date_str, "%Y-%m-%d")`, `Decimal(str)`
on the provider's decimal-string grammar (optional sign, digits, one
optional decimal point), `int(str)`, and the `MarketDataCreate` pydantic
field validation (ticker 1-10 chars, prices and volume strictly
positive); any of these failing raises `KeyError`/`ValueError` in the
source and drops the entry. -/

/-- ASCII digit test on a character. -/
def isDigitChar (c : Char) : Bool := 48 ≤ c.toNat && c.toNat ≤ 57

/-- Digits of a numeral character list, most significant first. -/
def natOfDigits (s : List Char) : Nat :=
  s.foldl (fun n c => n * 10 + (c.toNat - 48)) 0

/-- A nonempty all-digit character list parsed as a `Nat`
(Python `int(s)` on an unsigned numeral). -/
def parseNatChars (s : List Char) : Option Nat :=
  if s ≠ [] ∧ s.all isDigitChar then some (natOfDigits s) else none

/-- Split a character list on a separator character. -/
def splitChar (sep : Char) : List Char → List (List Char)
  | [] => [[]]
  | c :: cs =>
    if c = sep then [] :: splitChar sep cs
    else
      match splitChar sep cs with
      | [] => [[c]]
      | h :: t => (c :: h) :: t

/-- Exact decimal number (embedding of Python `Decimal`): the value
`num / 10 ^ scale`.  Comparison is by value (cross multiplication);
equality of two parsed prices is compared at their literal scales. -/
structure Dec where
  num : Int
  scale : Nat
deriving DecidableEq, Repr

def pow10 (n : Nat) : Int := ((10 ^ n : Nat) : Int)

/-- Value ordering on decimals: `a ≤ b`. -/
def Dec.le (a b : Dec) : Bool := a.num * pow10 b.scale ≤ b.num * pow10 a.scale

/-- Strict positivity of a decimal (`value > 0`). -/
def Dec.pos (a : Dec) : Bool := 0 < a.num

/-- The rational value a decimal denotes. -/
def Dec.toRat (a : Dec) : ℚ := (a.num : ℚ) / ((10 : ℚ) ^ a.scale)

/-- Embedding of `Decimal(s)` for an unsigned decimal string:
digits with at most one decimal point, at least one digit overall. -/
def parseUnsignedDecimal (s : List Char) : Option Dec :=
  match splitChar '.' s with
  | [a] =>
    if a ≠ [] ∧ a.all isDigitChar then some ⟨(natOfDigits a : Int), 0⟩
    else none
  | [a, b] =>
    if (a ≠ [] ∨ b ≠ []) ∧ a.all isDigitChar ∧ b.all isDigitChar then
      some ⟨(natOfDigits (a ++ b) : Int), b.length⟩
    else none
  | _ => none

/-- Embedding of `Decimal(s)`: optional leading sign, then the unsigned
decimal-string grammar of the provider's fields. -/
def parseDecimal (s : String) : Option Dec :=
  match s.data with
  | '-' :: rest =>
    (parseUnsignedDecimal rest).map (fun d => ⟨-d.num, d.scale⟩)
  | '+' :: rest => parseUnsignedDecimal rest
  | rest => parseUnsignedDecimal rest

/-- Embedding of Python `int(s)`: optional sign, digits. -/
def parseInt (s : String) : Option Int :=
  match s.data with
  | '-' :: rest => (parseNatChars rest).map (fun n => -(n : Int))
  | '+' :: rest => (parseNatChars rest).map Int.ofNat
  | rest => (parseNatChars rest).map Int.ofNat

/-- Embedding of `datetime.strptime(s, "%Y-%m-%d").date()`: three
dash-separated numerals forming a valid calendar date. -/
def parseDate (s : String) : Option Date :=
  match splitChar '-' s.data with
  | [ys, ms, ds] =>
    match parseNatChars ys, parseNatChars ms, parseNatChars ds with
    | some y, some m, some d =>
      let dt : Date := ⟨y, m, d⟩
      if dt.valid then some dt else none
    | _, _, _ => none
  | _ => none

/-- ASCII upper-casing of a string (`str.upper()` on ticker symbols). -/
def strUpper (s : String) : String := String.mk (s.data.map Char.toUpper)

/-- The normalized record (`MarketDataCreate` schema). -/
structure MarketDataCreate where
  ticker : String
  date_ : Date
  open_price : Dec
  high_price : Dec
  low_price : Dec
  close_price : Dec
  volume : Int
deriving DecidableEq, Repr

/-- Pydantic field validation of the `MarketDataCreate` constructor:
ticker length 1-10, all four prices `gt=0`, volume `gt=0`; violation
raises `ValidationError` (a `ValueError`), caught per entry. -/
def mkMarketDataCreate (t : String) (dt : Date) (o h l c : Dec) (v : Int) :
    Option MarketDataCreate :=
  if t.length ≥ 1 ∧ t.length ≤ 10 ∧ o.pos ∧ h.pos ∧ l.pos ∧ c.pos ∧ 0 < v
  then some ⟨t, dt, o, h, l, c, v⟩
  else none

/-- One raw time-series entry: the provider's field-name/value map. -/
def RawEntry : Type := List (String × String)

instance : DecidableEq RawEntry := by
  unfold RawEntry; infer_instance

/-- Raw provider payload: its top-level key set and the contents of the
`"Time Series (Daily)"` member (ignored when that key is absent —
`raw_data.get("Time Series (Daily)", {})` then yields the empty map). -/
structure RawPayload where
  topKeys : List String
  series : List (String × RawEntry)
deriving DecidableEq

/-- Embedding of `raw_data.get("Time Series (Daily)", {})`. -/
def getSeries (raw : RawPayload) : List (String × RawEntry) :=
  if "Time Series (Daily)" ∈ raw.topKeys then raw.series else []

/-- Outcome of parsing one time-series entry.  The per-entry
`except (KeyError, ValueError)` catches a missing field (`KeyError`),
an unparseable date or volume (`ValueError`) and a pydantic
`ValidationError` (a `ValueError`): the entry is dropped and the loop
continues.  But `Decimal` on a present, unparseable price string raises
`decimal.InvalidOperation`, an `ArithmeticError` the inner handler does
NOT catch: it escapes to the outer `except Exception`, which ends the
loop — the entries already transformed are returned and every later
entry is lost. -/
inductive EntryOutcome
  | ok (md : MarketDataCreate)
  | drop
  | abort
deriving DecidableEq, Repr

/-- Fetch-and-parse of one price field: `values[k]` then `Decimal`.
A missing key is a caught `KeyError`; a present but unparseable string
is the uncaught `decimal.InvalidOperation`. -/
inductive PriceFieldResult
  | ok (d : Dec)
  | missing
  | badDecimal
deriving DecidableEq, Repr

def getPriceField (values : RawEntry) (k : String) : PriceFieldResult :=
  match values.lookup k with
  | none => PriceFieldResult.missing
  | some s =>
    match parseDecimal s with
    | none => PriceFieldResult.badDecimal
    | some d => PriceFieldResult.ok d

/-- The body of the per-entry `try`, in source evaluation order: parse
the date (`ValueError` → drop), fetch and parse the four price fields
(`KeyError` → drop, `InvalidOperation` → abort), fetch and parse the
volume (`KeyError`/`ValueError` → drop), then construct the schema
object (`ValidationError` → drop). -/
def parseEntry (ticker : String) (dateKey : String) (values : RawEntry) :
    EntryOutcome :=
  match parseDate dateKey with
  | none => EntryOutcome.drop
  | some td =>
    match getPriceField values "1. open" with
    | PriceFieldResult.missing => EntryOutcome.drop
    | PriceFieldResult.badDecimal => EntryOutcome.abort
    | PriceFieldResult.ok o =>
      match getPriceField values "2. high" with
      | PriceFieldResult.missing => EntryOutcome.drop
      | PriceFieldResult.badDecimal => EntryOutcome.abort
      | PriceFieldResult.ok h =>
        match getPriceField values "3. low" with
        | PriceFieldResult.missing => EntryOutcome.drop
        | PriceFieldResult.badDecimal => EntryOutcome.abort
        | PriceFieldResult.ok l =>
          match getPriceField values "4. close" with
          | PriceFieldResult.missing => EntryOutcome.drop
          | PriceFieldResult.badDecimal => EntryOutcome.abort
          | PriceFieldResult.ok c =>
            match (values.lookup "5. volume").bind parseInt with
            | none => EntryOutcome.drop
            | some v =>
              match mkMarketDataCreate (strUpper ticker) td o h l c v with
              | none => EntryOutcome.drop
              | some md => EntryOutcome.ok md

/-- The record an entry contributes when its parse succeeds. -/
def entryOk (t : String) (e : String × RawEntry) :
    Option MarketDataCreate :=
  match parseEntry t e.1 e.2 with
  | EntryOutcome.ok md => some md
  | _ => none

/-- Whether an entry raises the uncaught `decimal.InvalidOperation`. -/
def entryAborts (t : String) (e : String × RawEntry) : Bool :=
  match parseEntry t e.1 e.2 with
  | EntryOutcome.abort => true
  | _ => false

/-- The transformer's loop over the time-series entries: append on
success, `continue` on a caught per-entry error, and stop — returning
the list accumulated so far — when an entry's uncaught error reaches
the outer `except Exception`. -/
def transformGo (ticker : String) :
    List (String × RawEntry) → List MarketDataCreate →
      List MarketDataCreate
  | [], acc => acc
  | e :: rest, acc =>
    match parseEntry ticker e.1 e.2 with
    | EntryOutcome.ok md => transformGo ticker rest (acc ++ [md])
    | EntryOutcome.drop => transformGo ticker rest acc
    | EntryOutcome.abort => acc

/-- Model of `DataTransformer.transform_alpha_vantage_data`: iterate the
time-series entries in order through `transformGo`. -/
def transform_alpha_vantage_data (ticker : String) (raw : RawPayload) :
    List MarketDataCreate :=
  transformGo ticker (getSeries raw) []

/-- Model of `DataTransformer.validate_data`: the price-ordering checks, then the
non-future-date check, in source order; any failing check returns
`false`. -/
def validate_data (today : Date) (d : MarketDataCreate) : Bool :=
  if ¬ (d.low_price.le d.open_price ∧ d.open_price.le d.high_price) then false
  else if ¬ (d.low_price.le d.close_price ∧ d.close_price.le d.high_price)
  then false
  else if toDays today < toDays d.date_ then false
  else true

/-! ## Extractor: `DataExtractor.fetch_daily_data` (`extractor.py`)

The network call itself is an external collaborator; its outcome (no
response, or a JSON payload) is the input.  The response classification
is the ordered `match`/guard chain of the source. -/

inductive Classification
  | errorMessage
  | note
  | informationMsg
  | timeSeries
  | unrecognized
deriving DecidableEq, Repr

/-- Ordered top-level-key classification of a provider response
(`match tuple(data.keys())` with ordered guards). -/
def classify_response (raw : RawPayload) : Classification :=
  if "Error Message" ∈ raw.topKeys then Classification.errorMessage
  else if "Note" ∈ raw.topKeys then Classification.note
  else if "Information" ∈ raw.topKeys then Classification.informationMsg
  else if "Time Series (Daily)" ∈ raw.topKeys then Classification.timeSeries
  else Classification.unrecognized

/-- The `fetch_daily_data` outcome: `none` models a network/HTTP failure
(every `except` arm returns `None`), otherwise the classified response;
only the time-series case returns the payload. -/
def fetch_daily_data (response : Option RawPayload) : Option RawPayload :=
  match response with
  | none => none
  | some raw =>
    match classify_response raw with
    | Classification.timeSeries => some raw
    | _ => none

/-! ## Loader: `DataLoader` (`loader.py`) and the storage collaborator

The relational store is a list of rows unique on `(ticker, date)`.  The
`INSERT … ON CONFLICT (ticker, date) DO UPDATE` statement of
`load_batch`/`load_market_data` overwrites exactly the
open/high/low/close/volume columns of a conflicting row.  Modelled from
the spec: the storage engine itself and the timestamp mixin
(`app/db/base.py` is not under `src/`) — `id` is assigned by storage on
first insert, `created_at`/`updated_at` are set on insert, and
`updated_at` is refreshed on every upsert that changes fields; time is
an abstract counter `now`. -/

structure MarketDataRow where
  id : Nat
  ticker : String
  date_ : Date
  open_price : Dec
  high_price : Dec
  low_price : Dec
  close_price : Dec
  volume : Int
  created_at : Nat
  updated_at : Nat
deriving DecidableEq, Repr

/-- Conflict test of the unique key `(ticker, date)`. -/
def keyMatches (t : String) (d : Date) (r : MarketDataRow) : Bool :=
  r.ticker = t ∧ r.date_ = d

/-- The `DO UPDATE SET` clause applied to a conflicting row: overwrite
`open/high/low/close/volume` and refresh `updated_at`, leaving `id`,
the key columns and `created_at` alone; non-conflicting rows are
untouched. -/
def conflictUpdate (now : Nat) (b : MarketDataCreate) (r : MarketDataRow) :
    MarketDataRow :=
  if keyMatches b.ticker b.date_ r then
    { r with
      open_price := b.open_price, high_price := b.high_price,
      low_price := b.low_price, close_price := b.close_price,
      volume := b.volume, updated_at := now }
  else r

/-- One atomic upsert keyed on `(ticker, date)`: on conflict apply the
`DO UPDATE SET` clause; otherwise insert a fresh row with both
timestamps `now` and a storage-assigned id. -/
def upsert (now : Nat) (store : List MarketDataRow) (b : MarketDataCreate) :
    List MarketDataRow :=
  if store.any (keyMatches b.ticker b.date_) then
    store.map (conflictUpdate now b)
  else
    store ++ [⟨store.length, b.ticker, b.date_, b.open_price, b.high_price,
      b.low_price, b.close_price, b.volume, now, now⟩]

/-- The rows stored under one `(ticker, date)` key. -/
def rowsFor (store : List MarketDataRow) (t : String) (d : Date) :
    List MarketDataRow :=
  store.filter (keyMatches t d)

/-- The store's unique constraint `uq_ticker_date`: no two rows share a
`(ticker, date)` key. -/
def keysUnique (store : List MarketDataRow) : Prop :=
  store.Pairwise (fun a b => ¬ (a.ticker = b.ticker ∧ a.date_ = b.date_))

/-- All rows of one multi-row upsert statement. -/
def upsertAll (now : Nat) (store : List MarketDataRow)
    (l : List MarketDataCreate) : List MarketDataRow :=
  l.foldl (upsert now) store

/-- Model of `DataLoader.load_batch`: empty input loads nothing; otherwise one
transaction applies the whole multi-row upsert and reports the full
count, or (on a statement/commit failure, `fail = true`) rolls back —
store unchanged — and reports `0`. -/
def load_batch (fail : Bool) (now : Nat) (store : List MarketDataRow)
    (data_list : List MarketDataCreate) : List MarketDataRow × Nat :=
  if data_list.isEmpty then (store, 0)
  else if fail then (store, 0)
  else (upsertAll now store data_list, data_list.length)

/-! ## Orchestrator: `ETLPipeline` (`pipeline.py`)

`run_for_ticker` composes the components.  Its awaited collaborator
calls are given as outcome values in a `RunEnv`: the two latest-date
queries (the source re-queries at the incremental filter), the provider
response handed to the extractor, and the loader transaction outcome.
Each is an `Except String _`: the `error` case is a Python exception
propagating out of that call, which the orchestrator's `try`/`except`
must catch.  `runBody` is the `try` body; an escaping exception carries
the message and the statistics accumulated so far, exactly as the
mutable `stats` dict does. -/

structure TickerStats where
  ticker : String
  extracted : Nat
  transformed : Nat
  loaded : Nat
  skipped : Bool
  reason : String
  status : String
deriving DecidableEq, Repr

structure RunEnv where
  today : Date
  latest1 : Except String (Option Date)
  response : Except String (Option RawPayload)
  latest2 : Except String (Option Date)
  loadFails : Except String Bool
  now : Nat
  store : List MarketDataRow

/-- The initial `stats` dict of `run_for_ticker`. -/
def initStats (ticker : String) : TickerStats :=
  ⟨ticker, 0, 0, 0, false, "", "failed"⟩

/-- The `Load` step: the loader's reported count, then
`"success" if loaded_count > 0 else "failed"`. -/
def loadStep (env : RunEnv) (s : TickerStats)
    (bars : List MarketDataCreate) : Except (String × TickerStats) TickerStats :=
  match env.loadFails with
  | Except.error m => Except.error (m, s)
  | Except.ok fail =>
    let c := (load_batch fail env.now env.store bars).2
    Except.ok { s with loaded := c,
                       status := if 0 < c then "success" else "failed" }

/-- The `if not valid_data` check after the incremental filter: empty →
terminal `no_new_data`, otherwise load. -/
def finishLoad (env : RunEnv) (s : TickerStats)
    (bars : List MarketDataCreate) : Except (String × TickerStats) TickerStats :=
  if bars.isEmpty then Except.ok { s with status := "no_new_data" }
  else loadStep env s bars

/-- The incremental re-filter: when `incremental`, re-query the latest
stored date and keep only bars with `date_ ≥ latest_date`. -/
def runIncremental (env : RunEnv) (s : TickerStats)
    (valid : List MarketDataCreate) (incremental : Bool) :
    Except (String × TickerStats) TickerStats :=
  if incremental then
    match env.latest2 with
    | Except.error m => Except.error (m, s)
    | Except.ok latestOpt =>
      match latestOpt with
      | some d =>
        finishLoad env s (valid.filter (fun b => toDays d ≤ toDays b.date_))
      | none => finishLoad env s valid
  else finishLoad env s valid

/-- Extract → transform → validate-filter, with the source's early
returns (`status` stays `"failed"`) and counter updates in source
order. -/
def runExtract (env : RunEnv) (ticker : String) (stats0 : TickerStats)
    (incremental : Bool) : Except (String × TickerStats) TickerStats :=
  match env.response with
  | Except.error m => Except.error (m, stats0)
  | Except.ok resp =>
    match fetch_daily_data resp with
    | none => Except.ok stats0
    | some raw =>
      let s1 := { stats0 with extracted := (getSeries raw).length }
      let td := transform_alpha_vantage_data ticker raw
      if td.isEmpty then Except.ok s1
      else
        let s2 := { s1 with transformed := td.length }
        let valid := td.filter (validate_data env.today)
        if valid.isEmpty then Except.ok s2
        else runIncremental env s2 valid incremental

/-- The `try` body of `ETLPipeline.run_for_ticker`. -/
def runBody (env : RunEnv) (ticker : String) (force incremental : Bool) :
    Except (String × TickerStats) TickerStats :=
  let stats0 := initStats ticker
  if incremental && !force then
    match env.latest1 with
    | Except.error m => Except.error (m, stats0)
    | Except.ok latest =>
      let sk := should_skip_decision latest env.today
      if sk.1 then
        Except.ok { stats0 with skipped := true, reason := sk.2,
                                status := "skipped" }
      else runExtract env ticker stats0 incremental
  else runExtract env ticker stats0 incremental

/-- Model of `ETLPipeline.run_for_ticker`: the `try` body with its `except`
handler — an escaping exception sets `status = "error"` and
`reason = str(e)` on the statistics accumulated so far. -/
def run_for_ticker (env : RunEnv) (ticker : String)
    (force incremental : Bool) : TickerStats :=
  match runBody env ticker force incremental with
  | Except.ok s => s
  | Except.error (m, s) => { s with status := "error", reason := m }

structure BatchStats where
  total_tickers : Nat
  successful : Nat
  failed : Nat
  skipped : Nat
  total_loaded : Nat
  details : List TickerStats
deriving DecidableEq, Repr

/-- Per-ticker accumulation of `run_batch`: append the detail record;
`success` and `skipped` have their own counters, every other status
increments `failed`. -/
def updateBatch (b : BatchStats) (ts : TickerStats) : BatchStats :=
  let b1 := { b with details := b.details ++ [ts] }
  if ts.status = "success" then
    { b1 with successful := b1.successful + 1,
              total_loaded := b1.total_loaded + ts.loaded }
  else if ts.status = "skipped" then { b1 with skipped := b1.skipped + 1 }
  else { b1 with failed := b1.failed + 1 }

/-- Model of `ETLPipeline.run_batch`: sequential per-ticker runs (each ticker's
collaborator outcomes given by `envOf`), statistics accumulated in input
order.  The function is total: a batch report is always produced. -/
def run_batch (envOf : String → RunEnv) (tickers : List String)
    (force incremental : Bool) : BatchStats :=
  tickers.foldl
    (fun b t => updateBatch b (run_for_ticker (envOf t) t force incremental))
    ⟨tickers.length, 0, 0, 0, 0, []⟩

/-! ## Status predicates and outcome projections -/

/-- Status test used by the batch `else` branch: neither success nor
skipped. -/
def isFailedStatus (s : TickerStats) : Bool :=
  ¬ (s.status = "success") ∧ ¬ (s.status = "skipped")

/-- The statistics carried by a `try`-body outcome, caught or not. -/
def statsOf : Except (String × TickerStats) TickerStats → TickerStats
  | Except.ok s => s
  | Except.error (_, s) => s

/-! ## Concrete scenario data -/

/-- Scenario payload of C3: two well-formed entries around one entry
whose price field does not parse. -/
def mixedPayload : RawPayload :=
  ⟨["Time Series (Daily)"],
   [("2024-01-15",
     [("1. open", "150.00"), ("2. high", "155.00"), ("3. low", "149.00"),
      ("4. close", "153.00"), ("5. volume", "1000000")]),
    ("2024-01-14",
     [("1. open", "invalid"), ("2. high", "155.00"), ("3. low", "149.00"),
      ("4. close", "153.00"), ("5. volume", "1000000")]),
    ("2024-01-13",
     [("1. open", "148.00"), ("2. high", "150.00"), ("3. low", "147.00"),
      ("4. close", "149.00"), ("5. volume", "900000")])]⟩

/-- A provider response carrying only the explicit error key. -/
def errorMsgPayload : RawPayload := ⟨["Error Message"], []⟩

/-- Collaborator outcomes for a run whose provider response is the
error-message payload (no stored data, loader healthy). -/
def envErrorMsg : RunEnv :=
  ⟨⟨2024, 1, 16⟩, Except.ok none, Except.ok (some errorMsgPayload),
   Except.ok none, Except.ok false, 0, []⟩

/-- A healthy provider payload with two well-formed bars. -/
def goodPayload : RawPayload :=
  ⟨["Time Series (Daily)"],
   [("2024-01-15",
     [("1. open", "150.00"), ("2. high", "155.00"), ("3. low", "149.00"),
      ("4. close", "153.00"), ("5. volume", "1000000")]),
    ("2024-01-14",
     [("1. open", "148.00"), ("2. high", "151.00"), ("3. low", "147.00"),
      ("4. close", "150.00"), ("5. volume", "900000")])]⟩

/-- Healthy collaborators: no stored data, good payload, loader fine. -/
def envGood : RunEnv :=
  ⟨⟨2024, 1, 16⟩, Except.ok none, Except.ok (some goodPayload),
   Except.ok none, Except.ok false, 0, []⟩

/-- The first latest-date query raises (for example, the database
session is broken). -/
def envBoom : RunEnv :=
  ⟨⟨2024, 1, 16⟩, Except.error "db down", Except.ok (some goodPayload),
   Except.ok none, Except.ok false, 0, []⟩

/-- Healthy run, but the stored latest date (2024-01-20) is newer than
every fetched bar: the incremental filter drops everything. -/
def envStale : RunEnv :=
  ⟨⟨2024, 1, 16⟩, Except.ok none, Except.ok (some goodPayload),
   Except.ok (some ⟨2024, 1, 20⟩), Except.ok false, 0, []⟩

/-- A payload whose single entry parses but violates the price
ordering (`open > high`), so validation drops every transformed bar. -/
def allInvalidPayload : RawPayload :=
  ⟨["Time Series (Daily)"],
   [("2024-01-15",
     [("1. open", "160.00"), ("2. high", "155.00"), ("3. low", "149.00"),
      ("4. close", "153.00"), ("5. volume", "1000000")])]⟩

def envAllInvalid : RunEnv :=
  ⟨⟨2024, 1, 16⟩, Except.ok none, Except.ok (some allInvalidPayload),
   Except.ok none, Except.ok false, 0, []⟩

/-! ## Shared lemmas -/

/-- The transformer's loop produces the successful parses of the
longest prefix of entries that precedes the first aborting entry:
caught per-entry errors are skipped, and the uncaught
`decimal.InvalidOperation` cuts the iteration short. -/
theorem transformGo_characterization (t : String) :
    ∀ (l : List (String × RawEntry)) (acc : List MarketDataCreate),
      transformGo t l acc
        = acc ++ (l.takeWhile
            (fun e => !(entryAborts t e))).filterMap (entryOk t) := by
  intro l
  induction l with
  | nil => intro acc; simp [transformGo]
  | cons e rest ih =>
    intro acc
    cases hp : parseEntry t e.1 e.2 <;>
      simp [transformGo, hp, List.takeWhile_cons, entryAborts, entryOk,
        List.filterMap_cons, ih]

theorem length_takeWhile_le_self {α : Type} (p : α → Bool) :
    ∀ l : List α, (l.takeWhile p).length ≤ l.length := by
  intro l
  induction l with
  | nil => simp
  | cons a l ih =>
    rw [List.takeWhile_cons]
    cases p a <;> simp_all <;> omega

theorem transform_length_le (t : String) (raw : RawPayload) :
    (transform_alpha_vantage_data t raw).length ≤ (getSeries raw).length := by
  unfold transform_alpha_vantage_data
  rw [transformGo_characterization]
  simp only [List.nil_append]
  exact (List.length_filterMap_le _ _).trans
    (length_takeWhile_le_self _ _)

/-! ## C3: what the transformer drops -/

/-- C3 counterexample.  On `mixedPayload` — a well-formed entry, then
an entry whose open-price string is unparseable, then another
well-formed entry — the source returns only the first bar: the
unparseable price raises `decimal.InvalidOperation`, which the
per-entry `except (KeyError, ValueError)` does not catch, so the outer
handler ends the loop and the third, well-formed entry (shown here to
parse successfully on its own) is dropped too, refuting "only that one
entry dropped". -/
theorem unparseable_price_drops_later_entries :
    transform_alpha_vantage_data "AAPL" mixedPayload
      = [⟨"AAPL", ⟨2024, 1, 15⟩, ⟨15000, 2⟩, ⟨15500, 2⟩, ⟨14900, 2⟩,
          ⟨15300, 2⟩, 1000000⟩]
  ∧ ¬ (⟨"AAPL", ⟨2024, 1, 13⟩, ⟨14800, 2⟩, ⟨15000, 2⟩, ⟨14700, 2⟩,
        ⟨14900, 2⟩, 900000⟩ ∈ transform_alpha_vantage_data "AAPL" mixedPayload)
  ∧ parseEntry "AAPL" "2024-01-13"
      [("1. open", "148.00"), ("2. high", "150.00"), ("3. low", "147.00"),
       ("4. close", "149.00"), ("5. volume", "900000")]
      = EntryOutcome.ok
        ⟨"AAPL", ⟨2024, 1, 13⟩, ⟨14800, 2⟩, ⟨15000, 2⟩, ⟨14700, 2⟩,
         ⟨14900, 2⟩, 900000⟩ := by
  refine ⟨by decide, by decide, by decide⟩

/-- C3 as amended.  The transformer returns the successfully parsed
bars of the longest prefix of time-series entries containing no entry
whose present price field is an unparseable decimal string: within that
prefix, exactly the entries with a caught error (unparseable date,
missing field, unparseable volume, field-validation failure) are
dropped and iteration continues; an entry with an unparseable price
aborts the loop, losing it and every later entry.  When no entry
aborts, the output is the per-entry parse filtered over the whole
payload — the behaviour the original claim described.  On
`mixedPayload` only the bar preceding the unparseable-price entry is
produced. -/
theorem transform_drops_until_price_abort (t : String) (raw : RawPayload) :
    transform_alpha_vantage_data t raw
      = ((getSeries raw).takeWhile
          (fun e => !(entryAborts t e))).filterMap (entryOk t)
  ∧ ((∀ e ∈ getSeries raw, entryAborts t e = false) →
      transform_alpha_vantage_data t raw
        = (getSeries raw).filterMap (entryOk t))
  ∧ transform_alpha_vantage_data "AAPL" mixedPayload
      = [⟨"AAPL", ⟨2024, 1, 15⟩, ⟨15000, 2⟩, ⟨15500, 2⟩, ⟨14900, 2⟩,
          ⟨15300, 2⟩, 1000000⟩] := by
  have hchar : transform_alpha_vantage_data t raw
      = ((getSeries raw).takeWhile
          (fun e => !(entryAborts t e))).filterMap (entryOk t) := by
    unfold transform_alpha_vantage_data
    simpa using transformGo_characterization t (getSeries raw) []
  refine ⟨hchar, ?_, by decide⟩
  intro h
  rw [hchar]
  congr 1
  rw [List.takeWhile_eq_self_iff]
  intro e he
  simp [h e he]

/-- Witness for C3's amended theorem: `goodPayload` has no aborting
entry, so the whole payload is transformed per entry. -/
theorem transform_drops_until_price_abort_witness :
    transform_alpha_vantage_data "AAPL" goodPayload
      = (getSeries goodPayload).filterMap (entryOk "AAPL") :=
  (transform_drops_until_price_abort "AAPL" goodPayload).2.1 (by decide)

/-! ## C9: the validator accepts exactly the price-ordered, non-future
bars -/

/-- C9 (confirmed).  `validate_data` returns `true` exactly when
`low ≤ open ≤ high`, `low ≤ close ≤ high` and the trading date is not
after `today`; a bar dated tomorrow is always rejected.  The function
is total (the source's `except` arm is unreachable for well-typed
records), so it never raises. -/
theorem validate_data_spec (today : Date) (d : MarketDataCreate) :
    (validate_data today d = true ↔
      (d.low_price.le d.open_price = true ∧
       d.open_price.le d.high_price = true ∧
       d.low_price.le d.close_price = true ∧
       d.close_price.le d.high_price = true ∧
       toDays d.date_ ≤ toDays today))
    ∧ (toDays d.date_ = toDays today + 1 → validate_data today d = false) := by
  unfold validate_data
  constructor
  · split_ifs with h1 h2 h3 <;> simp_all <;> omega
  · intro h
    split_ifs with h1 h2 h3 <;> simp_all <;> omega

/-- Witness for C9: a concrete bar dated one day after `today` is
rejected. -/
theorem validate_data_spec_witness :
    validate_data ⟨2024, 1, 16⟩
      ⟨"AAPL", ⟨2024, 1, 17⟩, ⟨15000, 2⟩, ⟨15500, 2⟩, ⟨14900, 2⟩,
       ⟨15300, 2⟩, 1000000⟩ = false :=
  (validate_data_spec ⟨2024, 1, 16⟩
      ⟨"AAPL", ⟨2024, 1, 17⟩, ⟨15000, 2⟩, ⟨15500, 2⟩, ⟨14900, 2⟩,
       ⟨15300, 2⟩, 1000000⟩).2 (by decide)

/-! ## C8: ordered response classification in the extractor -/

/-- C8 (confirmed).  The extractor classifies a response's top-level
keys in fixed precedence order — error message, then rate-limit note,
then information message, then time-series container, then unrecognized
— and only the time-series case returns the payload; the three notice
classifications, a network failure (`none` response), and an
unrecognized shape all yield `none`, with no partial data.  On the
concrete `"Error Message"` payload the per-ticker run ends with
`status = "failed"`, `extracted = 0` and `transformed = 0`: the
transformer is never reached. -/
theorem extractor_classification_spec (raw : RawPayload) :
    ("Error Message" ∈ raw.topKeys →
      classify_response raw = Classification.errorMessage ∧
      fetch_daily_data (some raw) = none)
  ∧ ("Error Message" ∉ raw.topKeys → "Note" ∈ raw.topKeys →
      classify_response raw = Classification.note ∧
      fetch_daily_data (some raw) = none)
  ∧ ("Error Message" ∉ raw.topKeys → "Note" ∉ raw.topKeys →
     "Information" ∈ raw.topKeys →
      classify_response raw = Classification.informationMsg ∧
      fetch_daily_data (some raw) = none)
  ∧ ("Error Message" ∉ raw.topKeys → "Note" ∉ raw.topKeys →
     "Information" ∉ raw.topKeys → "Time Series (Daily)" ∈ raw.topKeys →
      classify_response raw = Classification.timeSeries ∧
      fetch_daily_data (some raw) = some raw)
  ∧ ("Error Message" ∉ raw.topKeys → "Note" ∉ raw.topKeys →
     "Information" ∉ raw.topKeys → "Time Series (Daily)" ∉ raw.topKeys →
      classify_response raw = Classification.unrecognized ∧
      fetch_daily_data (some raw) = none)
  ∧ fetch_daily_data none = none
  ∧ (∀ p, fetch_daily_data (some raw) = some p →
      p = raw ∧ classify_response raw = Classification.timeSeries)
  ∧ run_for_ticker envErrorMsg "AAPL" false true
      = ⟨"AAPL", 0, 0, 0, false, "", "failed"⟩ := by
  refine ⟨?_, ?_, ?_, ?_, ?_, rfl, ?_, by decide⟩
  · intro h1; constructor <;> simp [classify_response, fetch_daily_data, h1]
  · intro h1 h2
    constructor <;> simp [classify_response, fetch_daily_data, h1, h2]
  · intro h1 h2 h3
    constructor <;> simp [classify_response, fetch_daily_data, h1, h2, h3]
  · intro h1 h2 h3 h4
    constructor <;> simp [classify_response, fetch_daily_data, h1, h2, h3, h4]
  · intro h1 h2 h3 h4
    constructor <;> simp [classify_response, fetch_daily_data, h1, h2, h3, h4]
  · intro p hp
    simp only [fetch_daily_data] at hp
    cases hc : classify_response raw <;> rw [hc] at hp <;> simp_all

/-- Witness for C8: the precedence conjuncts evaluated on concrete
payloads. -/
theorem extractor_classification_spec_witness :
    (classify_response ⟨["Error Message", "Time Series (Daily)"], []⟩
        = Classification.errorMessage ∧
      fetch_daily_data (some ⟨["Error Message", "Time Series (Daily)"], []⟩)
        = none)
    ∧ (classify_response ⟨["Note", "Time Series (Daily)"], []⟩
        = Classification.note ∧
      fetch_daily_data (some ⟨["Note", "Time Series (Daily)"], []⟩) = none)
    ∧ (classify_response ⟨["Time Series (Daily)"], []⟩
        = Classification.timeSeries ∧
      fetch_daily_data (some ⟨["Time Series (Daily)"], []⟩)
        = some ⟨["Time Series (Daily)"], []⟩)
    ∧ (classify_response ⟨["whatever"], []⟩ = Classification.unrecognized ∧
      fetch_daily_data (some ⟨["whatever"], []⟩) = none) :=
  ⟨(extractor_classification_spec
      ⟨["Error Message", "Time Series (Daily)"], []⟩).1 (by decide),
   (extractor_classification_spec
      ⟨["Note", "Time Series (Daily)"], []⟩).2.1 (by decide) (by decide),
   (extractor_classification_spec
      ⟨["Time Series (Daily)"], []⟩).2.2.2.1
     (by decide) (by decide) (by decide) (by decide),
   (extractor_classification_spec ⟨["whatever"], []⟩).2.2.2.2.1
     (by decide) (by decide) (by decide) (by decide)⟩

/-! ## C4: the freshness oracle -/

/-- C4 counterexample.  2024-01-14 is a Sunday and 2024-01-12 the prior
Friday: the oracle skips, but its reason is not the bare string
`"weekend_data_current"` — the source appends the latest stored date
(`f"weekend_data_current_{latest_date}"`), so the claim's stated reason
is wrong as written. -/
theorem weekend_reason_not_bare :
    (should_skip_decision (some ⟨2024, 1, 12⟩) ⟨2024, 1, 14⟩).1 = true
    ∧ (should_skip_decision (some ⟨2024, 1, 12⟩) ⟨2024, 1, 14⟩).2
        ≠ "weekend_data_current"
    ∧ (should_skip_decision (some ⟨2024, 1, 12⟩) ⟨2024, 1, 14⟩).2
        = "weekend_data_current_2024-01-12" := by
  refine ⟨by decide, by decide, by decide⟩

/-- C4 as amended.  The oracle on `(latestStoredDate, today)`:
an absent latest date gives no skip with reason `"initial_load"`;
`today - latest ≤ 1` day skips; otherwise on a Saturday/Sunday with the
latest date on or after the most recent prior Friday it skips with
reason `"weekend_data_current_"` followed by the latest date; otherwise
it does not skip, with reason `"needs_update_last_update_"` followed by
the latest date.  In particular `latest = today` skips,
`latest = today - 2` on a non-weekend does not skip, and
`latest =` Friday checked on the following Saturday or Sunday skips. -/
theorem should_skip_decision_spec (d today : Date) :
    should_skip_decision none today = (false, "initial_load")
  ∧ ((toDays today : Int) - (toDays d : Int) ≤ 1 →
      (should_skip_decision (some d) today).1 = true)
  ∧ (1 < (toDays today : Int) - (toDays d : Int) →
     (weekday today = 5 ∨ weekday today = 6) →
     (toDays today : Int) - ((weekday today : Int) - 4) ≤ (toDays d : Int) →
      should_skip_decision (some d) today
        = (true, "weekend_data_current_" ++ dateStr d))
  ∧ (1 < (toDays today : Int) - (toDays d : Int) →
     ((toDays d : Int) < (toDays today : Int) - ((weekday today : Int) - 4)
       ∨ (weekday today ≠ 5 ∧ weekday today ≠ 6)) →
      should_skip_decision (some d) today
        = (false, "needs_update_last_update_" ++ dateStr d))
  ∧ (should_skip_decision (some today) today).1 = true
  ∧ (toDays today = toDays d + 2 → weekday today ≠ 5 → weekday today ≠ 6 →
      (should_skip_decision (some d) today).1 = false)
  ∧ (weekday d = 4 →
     (toDays today = toDays d + 1 ∨ toDays today = toDays d + 2) →
      (should_skip_decision (some d) today).1 = true) := by
  refine ⟨rfl, ?_, ?_, ?_, ?_, ?_, ?_⟩
  · intro h
    simp only [should_skip_decision, weekday]
    split_ifs <;> simp_all <;> omega
  · intro h1 h2 h3
    simp only [should_skip_decision, weekday] at h2 h3 ⊢
    split_ifs <;> simp_all <;> omega
  · intro h1 h2
    simp only [should_skip_decision, weekday] at h2 ⊢
    split_ifs <;> simp_all <;> omega
  · simp only [should_skip_decision, weekday]
    split_ifs <;> simp_all <;> omega
  · intro h1 h2 h3
    simp only [should_skip_decision, weekday] at h2 h3 ⊢
    split_ifs <;> simp_all <;> omega
  · intro h1 h2
    simp only [should_skip_decision, weekday] at h1 h2 ⊢
    split_ifs <;> simp_all <;> omega

/-- Witness for C4: the conditional conjuncts at concrete dates
(2024-01-12 is a Friday, 2024-01-13/14 the weekend after,
2024-01-16 a Tuesday). -/
theorem should_skip_decision_spec_witness :
    (should_skip_decision (some ⟨2024, 1, 15⟩) ⟨2024, 1, 16⟩).1 = true
  ∧ should_skip_decision (some ⟨2024, 1, 12⟩) ⟨2024, 1, 14⟩
      = (true, "weekend_data_current_" ++ dateStr ⟨2024, 1, 12⟩)
  ∧ should_skip_decision (some ⟨2024, 1, 12⟩) ⟨2024, 1, 16⟩
      = (false, "needs_update_last_update_" ++ dateStr ⟨2024, 1, 12⟩)
  ∧ (should_skip_decision (some ⟨2024, 1, 14⟩) ⟨2024, 1, 16⟩).1 = false
  ∧ (should_skip_decision (some ⟨2024, 1, 12⟩) ⟨2024, 1, 13⟩).1 = true :=
  ⟨(should_skip_decision_spec ⟨2024, 1, 15⟩ ⟨2024, 1, 16⟩).2.1 (by decide),
   (should_skip_decision_spec ⟨2024, 1, 12⟩ ⟨2024, 1, 14⟩).2.2.1
     (by decide) (by decide) (by decide),
   (should_skip_decision_spec ⟨2024, 1, 12⟩ ⟨2024, 1, 16⟩).2.2.2.1
     (by decide) (by decide),
   (should_skip_decision_spec ⟨2024, 1, 14⟩ ⟨2024, 1, 16⟩).2.2.2.2.2.1
     (by decide) (by decide) (by decide),
   (should_skip_decision_spec ⟨2024, 1, 12⟩ ⟨2024, 1, 13⟩).2.2.2.2.2.2
     (by decide) (by decide)⟩

/-! ## C6: atomic all-or-nothing batch load -/

/-- C6 (confirmed).  `load_batch` on any store and bar list either
applies the whole multi-row upsert and returns the full count, or — on
a transaction failure — leaves the store unchanged and returns 0; it
never partially applies.  When the transaction fails on a non-empty
batch, the orchestrator's load step marks the ticker `failed` with
`loaded = 0`. -/
theorem load_batch_atomic (fail : Bool) (now : Nat)
    (store : List MarketDataRow) (l : List MarketDataCreate) :
    (fail = false →
      load_batch fail now store l = (upsertAll now store l, l.length))
  ∧ (fail = true → load_batch fail now store l = (store, 0))
  ∧ (load_batch fail now store l = (upsertAll now store l, l.length)
      ∨ load_batch fail now store l = (store, 0))
  ∧ (∀ env : RunEnv, ∀ s : TickerStats,
      env.loadFails = Except.ok true → l ≠ [] →
      loadStep env s l = Except.ok { s with loaded := 0, status := "failed" }) := by
  refine ⟨?_, ?_, ?_, ?_⟩
  · intro h
    cases hl : l.isEmpty <;>
      simp_all [load_batch, upsertAll, List.isEmpty_iff]
  · intro h; simp [load_batch, h]
  · cases fail
    · left
      cases hl : l.isEmpty <;>
        simp_all [load_batch, upsertAll, List.isEmpty_iff]
    · right; simp [load_batch]
  · intro env s hloads hl
    simp [loadStep, hloads, load_batch, List.isEmpty_iff, hl]

/-- Witness for C6: a failing and a succeeding one-bar load on the empty
store. -/
theorem load_batch_atomic_witness :
    load_batch true 5 []
        [⟨"AAPL", ⟨2024, 1, 15⟩, ⟨15000, 2⟩, ⟨15500, 2⟩, ⟨14900, 2⟩,
          ⟨15300, 2⟩, 1000000⟩] = ([], 0)
  ∧ load_batch false 5 []
        [⟨"AAPL", ⟨2024, 1, 15⟩, ⟨15000, 2⟩, ⟨15500, 2⟩, ⟨14900, 2⟩,
          ⟨15300, 2⟩, 1000000⟩]
      = (upsertAll 5 []
          [⟨"AAPL", ⟨2024, 1, 15⟩, ⟨15000, 2⟩, ⟨15500, 2⟩, ⟨14900, 2⟩,
            ⟨15300, 2⟩, 1000000⟩], 1) :=
  ⟨(load_batch_atomic true 5 _ _).2.1 rfl,
   (load_batch_atomic false 5 _ _).1 rfl⟩

/-! ## Batch accumulation lemmas -/

theorem updateBatch_fields (b : BatchStats) (s : TickerStats) :
    (updateBatch b s).details = b.details ++ [s]
  ∧ (updateBatch b s).total_tickers = b.total_tickers
  ∧ (updateBatch b s).successful
      = b.successful + (if s.status = "success" then 1 else 0)
  ∧ (updateBatch b s).skipped
      = b.skipped + (if s.status = "skipped" then 1 else 0)
  ∧ (updateBatch b s).failed
      = b.failed
        + (if s.status ≠ "success" ∧ s.status ≠ "skipped" then 1 else 0)
  ∧ (updateBatch b s).total_loaded
      = b.total_loaded + (if s.status = "success" then s.loaded else 0) := by
  unfold updateBatch
  split_ifs <;> simp_all

theorem run_batch_foldl_spec (F : String → TickerStats) :
    ∀ (ts : List String) (b : BatchStats),
      (ts.foldl (fun b t => updateBatch b (F t)) b).details
          = b.details ++ ts.map F
      ∧ (ts.foldl (fun b t => updateBatch b (F t)) b).total_tickers
          = b.total_tickers
      ∧ (ts.foldl (fun b t => updateBatch b (F t)) b).successful
          = b.successful + (ts.map F).countP (fun s => s.status == "success")
      ∧ (ts.foldl (fun b t => updateBatch b (F t)) b).skipped
          = b.skipped + (ts.map F).countP (fun s => s.status == "skipped")
      ∧ (ts.foldl (fun b t => updateBatch b (F t)) b).failed
          = b.failed + (ts.map F).countP isFailedStatus
      ∧ (ts.foldl (fun b t => updateBatch b (F t)) b).total_loaded
          = b.total_loaded
            + (((ts.map F).filter (fun s => s.status == "success")).map
                (fun s => s.loaded)).sum := by
  intro ts
  induction ts with
  | nil => intro b; simp
  | cons t rest ih =>
    intro b
    have hu := updateBatch_fields b (F t)
    have hr := ih (updateBatch b (F t))
    refine ⟨?_, ?_, ?_, ?_, ?_, ?_⟩
    · rw [List.foldl_cons, hr.1, hu.1]; simp
    · rw [List.foldl_cons, hr.2.1, hu.2.1]
    · rw [List.foldl_cons, hr.2.2.1, hu.2.2.1]
      by_cases h : (F t).status = "success" <;>
        simp [List.countP_cons, h, isFailedStatus] <;> omega
    · rw [List.foldl_cons, hr.2.2.2.1, hu.2.2.2.1]
      by_cases h : (F t).status = "skipped" <;>
        simp [List.countP_cons, h, isFailedStatus] <;> omega
    · rw [List.foldl_cons, hr.2.2.2.2.1, hu.2.2.2.2.1]
      by_cases h1 : (F t).status = "success" <;>
        by_cases h2 : (F t).status = "skipped" <;>
        simp [List.countP_cons, h1, h2, isFailedStatus] <;> omega
    · rw [List.foldl_cons, hr.2.2.2.2.2, hu.2.2.2.2.2]
      by_cases h : (F t).status = "success" <;>
        simp [List.filter_cons, h] <;> omega

/-! ## C7: per-ticker error isolation in the batch -/

/-- C7 (confirmed).  A batch report is always produced (`run_batch` is
total): its detail list is the per-ticker run of every requested ticker
in input order, so one ticker's outcome never disturbs another's; its
`failed` counter counts exactly the tickers whose status is neither
`"success"` nor `"skipped"` — every `"error"` ticker among the inputs
makes it positive; and whenever the `try` body of a per-ticker run
raises `m` with statistics `s` accumulated so far, the run is caught at
the per-ticker boundary and returns `s` with `status = "error"` and
`reason = m`. -/
theorem run_batch_error_isolation (envOf : String → RunEnv)
    (tickers : List String) (f i : Bool) :
    (run_batch envOf tickers f i).details
        = tickers.map (fun t => run_for_ticker (envOf t) t f i)
  ∧ (run_batch envOf tickers f i).total_tickers = tickers.length
  ∧ (run_batch envOf tickers f i).failed
      = (tickers.map (fun t => run_for_ticker (envOf t) t f i)).countP
          isFailedStatus
  ∧ (∀ (env : RunEnv) (t m : String) (s : TickerStats),
      runBody env t f i = Except.error (m, s) →
      run_for_ticker env t f i = { s with status := "error", reason := m })
  ∧ (∀ t, t ∈ tickers →
      (run_for_ticker (envOf t) t f i).status = "error" →
      0 < (run_batch envOf tickers f i).failed) := by
  have h := run_batch_foldl_spec
    (fun t => run_for_ticker (envOf t) t f i) tickers
    ⟨tickers.length, 0, 0, 0, 0, []⟩
  refine ⟨?_, ?_, ?_, ?_, ?_⟩
  · simpa [run_batch] using h.1
  · simpa [run_batch] using h.2.1
  · simpa [run_batch] using h.2.2.2.2.1
  · intro env t m s hb
    simp [run_for_ticker, hb]
  · intro t hmem herr
    have hcount :
        0 < (tickers.map (fun t => run_for_ticker (envOf t) t f i)).countP
          isFailedStatus := by
      rw [List.countP_pos]
      refine ⟨run_for_ticker (envOf t) t f i, List.mem_map_of_mem _ hmem, ?_⟩
      simp [isFailedStatus, herr]
    have hf : (run_batch envOf tickers f i).failed
        = (tickers.map (fun t => run_for_ticker (envOf t) t f i)).countP
          isFailedStatus := by
      simpa [run_batch] using h.2.2.2.2.1
    omega

/-- Witness for C7: a two-ticker batch where the first ticker's run
raises and the second succeeds. -/
theorem run_batch_error_isolation_witness :
    run_for_ticker envBoom "A" false true
      = { initStats "A" with status := "error", reason := "db down" }
  ∧ 0 < (run_batch (fun t => if t = "A" then envBoom else envGood)
          ["A", "B"] false true).failed :=
  ⟨(run_batch_error_isolation (fun t => if t = "A" then envBoom else envGood)
      ["A", "B"] false true).2.2.2.1 envBoom "A" "db down" (initStats "A")
      rfl,
   (run_batch_error_isolation (fun t => if t = "A" then envBoom else envGood)
      ["A", "B"] false true).2.2.2.2 "A" (by decide) (by decide)⟩

/-! ## C1: the NO_NEW_DATA terminal state and how the batch counts it -/

/-- C1 counterexample.  A run in which validation keeps both bars but
the incremental filter (latest stored date 2024-01-20) drops them all:
the ticker ends `no_new_data` — yet `run_batch` counts it in `failed`,
because its accumulation treats every status other than `"success"` and
`"skipped"` as failed.  The claim's "not counted in the failed count"
is false on the code. -/
theorem no_new_data_counted_as_failed :
    (run_for_ticker envStale "AAPL" false true).status = "no_new_data"
  ∧ (run_for_ticker envStale "AAPL" false true).transformed = 2
  ∧ (run_batch (fun _ => envStale) ["AAPL"] false true).failed = 1
  ∧ (run_batch (fun _ => envStale) ["AAPL"] false true).successful = 0 := by
  refine ⟨by decide, by decide, by decide, by decide⟩

/-- C1 as amended.  For every ticker run with `incremental = true` that
passes the skip check, in which validation leaves at least one bar but
the incremental filter (keeping only bars with
`date ≥ latestStoredDate`) leaves none, `run_for_ticker` ends in
terminal NO_NEW_DATA with `status = "no_new_data"` (not skipped,
nothing loaded) — but `run_batch` does count such a ticker in the
`failed` count of `BatchStats`, since only `"success"` and `"skipped"`
escape the failed bucket. -/
theorem no_new_data_when_incremental_filter_empties
    (env : RunEnv) (t : String) (force : Bool) (r : Option RawPayload)
    (p : RawPayload) (d : Date)
    (hskip : force = true
      ∨ ∃ l, env.latest1 = Except.ok l
          ∧ (should_skip_decision l env.today).1 = false)
    (hresp : env.response = Except.ok r)
    (hfetch : fetch_daily_data r = some p)
    (htd : (transform_alpha_vantage_data t p).isEmpty = false)
    (hvalid : ((transform_alpha_vantage_data t p).filter
        (validate_data env.today)).isEmpty = false)
    (hl2 : env.latest2 = Except.ok (some d))
    (hfil : (((transform_alpha_vantage_data t p).filter
        (validate_data env.today)).filter
          (fun b => toDays d ≤ toDays b.date_)).isEmpty = true) :
    run_for_ticker env t force true
      = { initStats t with
          extracted := (getSeries p).length,
          transformed := (transform_alpha_vantage_data t p).length,
          status := "no_new_data" }
  ∧ (run_for_ticker env t force true).skipped = false
  ∧ (run_for_ticker env t force true).loaded = 0
  ∧ (run_batch (fun _ => env) [t] force true).failed = 1 := by
  have hext : runExtract env t (initStats t) true
      = Except.ok
        { initStats t with
          extracted := (getSeries p).length,
          transformed := (transform_alpha_vantage_data t p).length,
          status := "no_new_data" } := by
    simp only [runExtract, hresp, hfetch, htd, runIncremental, hl2,
      finishLoad, hfil, Bool.false_eq_true, if_false, if_true, hvalid]
  have hbody : runBody env t force true
      = Except.ok
        { initStats t with
          extracted := (getSeries p).length,
          transformed := (transform_alpha_vantage_data t p).length,
          status := "no_new_data" } := by
    rcases hskip with hf | ⟨l, hl1, hsk⟩
    · subst hf; simpa [runBody] using hext
    · simp only [runBody, hl1, hsk]
      cases force <;> simp_all [runBody, hl1, hsk]
  have hrun : run_for_ticker env t force true
      = { initStats t with
          extracted := (getSeries p).length,
          transformed := (transform_alpha_vantage_data t p).length,
          status := "no_new_data" } := by
    simp [run_for_ticker, hbody]
  refine ⟨hrun, by simp [hrun, initStats], by simp [hrun, initStats], ?_⟩
  simp [run_batch, hrun, updateBatch, initStats]

/-- Witness for C1's amended theorem at the concrete stale run. -/
theorem no_new_data_when_incremental_filter_empties_witness :
    run_for_ticker envStale "AAPL" false true
      = { initStats "AAPL" with
          extracted := (getSeries goodPayload).length,
          transformed :=
            (transform_alpha_vantage_data "AAPL" goodPayload).length,
          status := "no_new_data" }
  ∧ (run_for_ticker envStale "AAPL" false true).skipped = false
  ∧ (run_for_ticker envStale "AAPL" false true).loaded = 0
  ∧ (run_batch (fun _ => envStale) ["AAPL"] false true).failed = 1 :=
  no_new_data_when_incremental_filter_empties envStale "AAPL" false
    (some goodPayload) goodPayload ⟨2024, 1, 20⟩
    (Or.inr ⟨none, rfl, by decide⟩) rfl (by decide) (by decide) (by decide)
    rfl (by decide)

/-! ## C2: all transformed records dropped by the validate-filter -/

/-- C2 counterexample.  A run whose single transformed bar violates the
price ordering: every record is dropped by the validate-filter for a
data-quality reason, the run does not abort — but the ticker ends with
`status = "failed"`, not `"no_new_data"`. -/
theorem all_dropped_ends_failed_not_no_new_data :
    (run_for_ticker envAllInvalid "AAPL" false true).transformed = 1
  ∧ (run_for_ticker envAllInvalid "AAPL" false true).status = "failed"
  ∧ (run_for_ticker envAllInvalid "AAPL" false true).status
      ≠ "no_new_data" := by
  refine ⟨by decide, by decide, by decide⟩

/-- C2 as amended.  When every transformed record is dropped by the
validate-filter, the per-ticker run returns normally (no exception;
`status = "failed"`, counters as accumulated, nothing loaded), the
batch counts the ticker as failed, and the batch still processes every
remaining ticker. -/
theorem validate_filter_empty_ends_failed
    (env : RunEnv) (t : String) (force incremental : Bool)
    (r : Option RawPayload) (p : RawPayload)
    (hskip : (incremental && !force) = false
      ∨ ∃ l, env.latest1 = Except.ok l
          ∧ (should_skip_decision l env.today).1 = false)
    (hresp : env.response = Except.ok r)
    (hfetch : fetch_daily_data r = some p)
    (htd : (transform_alpha_vantage_data t p).isEmpty = false)
    (hvalid : ((transform_alpha_vantage_data t p).filter
        (validate_data env.today)).isEmpty = true) :
    run_for_ticker env t force incremental
      = { initStats t with
          extracted := (getSeries p).length,
          transformed := (transform_alpha_vantage_data t p).length }
  ∧ (run_for_ticker env t force incremental).status = "failed"
  ∧ (run_batch (fun _ => env) [t] force incremental).failed = 1
  ∧ (∀ (envOf : String → RunEnv) (rest : List String), envOf t = env →
      (run_batch envOf (t :: rest) force incremental).details
        = run_for_ticker env t force incremental
            :: rest.map (fun x => run_for_ticker (envOf x) x force incremental)) := by
  have hext : runExtract env t (initStats t) incremental
      = Except.ok
        { initStats t with
          extracted := (getSeries p).length,
          transformed := (transform_alpha_vantage_data t p).length } := by
    simp only [runExtract, hresp, hfetch, htd, hvalid, Bool.false_eq_true,
      if_false, if_true]
  have hbody : runBody env t force incremental
      = Except.ok
        { initStats t with
          extracted := (getSeries p).length,
          transformed := (transform_alpha_vantage_data t p).length } := by
    rcases hskip with hf | ⟨l, hl1, hsk⟩
    · simpa [runBody, hf] using hext
    · simp only [runBody, hl1, hsk]
      cases hc : (incremental && !force) <;> simp_all [runBody, hl1, hsk]
  have hrun : run_for_ticker env t force incremental
      = { initStats t with
          extracted := (getSeries p).length,
          transformed := (transform_alpha_vantage_data t p).length } := by
    simp [run_for_ticker, hbody]
  refine ⟨hrun, by simp [hrun, initStats], ?_, ?_⟩
  · simp [run_batch, hrun, updateBatch, initStats]
  · intro envOf rest ht
    have h := run_batch_foldl_spec
      (fun x => run_for_ticker (envOf x) x force incremental) (t :: rest)
      ⟨(t :: rest).length, 0, 0, 0, 0, []⟩
    have hd := h.1
    simp only [run_batch, List.map_cons, ht] at hd ⊢
    simpa using hd

/-- Witness for C2's amended theorem at the concrete all-invalid run. -/
theorem validate_filter_empty_ends_failed_witness :
    run_for_ticker envAllInvalid "AAPL" false true
      = { initStats "AAPL" with
          extracted := (getSeries allInvalidPayload).length,
          transformed :=
            (transform_alpha_vantage_data "AAPL" allInvalidPayload).length }
  ∧ (run_for_ticker envAllInvalid "AAPL" false true).status = "failed"
  ∧ (run_batch (fun _ => envAllInvalid) ["AAPL"] false true).failed = 1
  ∧ (∀ (envOf : String → RunEnv) (rest : List String),
      envOf "AAPL" = envAllInvalid →
      (run_batch envOf ("AAPL" :: rest) false true).details
        = run_for_ticker envAllInvalid "AAPL" false true
            :: rest.map (fun x => run_for_ticker (envOf x) x false true)) :=
  validate_filter_empty_ends_failed envAllInvalid "AAPL" false true
    (some allInvalidPayload) allInvalidPayload
    (Or.inr ⟨none, rfl, by decide⟩) rfl (by decide) (by decide) (by decide)

/-! ## C10: counter monotonicity along the pipeline -/

theorem run_for_ticker_eq_statsOf (env : RunEnv) (t : String) (f i : Bool) :
    (run_for_ticker env t f i).extracted
        = (statsOf (runBody env t f i)).extracted
  ∧ (run_for_ticker env t f i).transformed
        = (statsOf (runBody env t f i)).transformed
  ∧ (run_for_ticker env t f i).loaded
        = (statsOf (runBody env t f i)).loaded := by
  unfold run_for_ticker
  cases hb : runBody env t f i with
  | ok s => simp [statsOf]
  | error e => cases e; simp [statsOf]

theorem statsOf_loadStep (env : RunEnv) (s : TickerStats)
    (bars : List MarketDataCreate) :
    (statsOf (loadStep env s bars)).extracted = s.extracted
  ∧ (statsOf (loadStep env s bars)).transformed = s.transformed
  ∧ ((statsOf (loadStep env s bars)).loaded = s.loaded
      ∨ (statsOf (loadStep env s bars)).loaded ≤ bars.length) := by
  unfold loadStep
  cases env.loadFails with
  | error m => simp [statsOf]
  | ok fail =>
    refine ⟨by simp [statsOf], by simp [statsOf], Or.inr ?_⟩
    simp only [statsOf, load_batch]
    split_ifs <;> simp

theorem statsOf_finishLoad (env : RunEnv) (s : TickerStats)
    (bars : List MarketDataCreate) :
    (statsOf (finishLoad env s bars)).extracted = s.extracted
  ∧ (statsOf (finishLoad env s bars)).transformed = s.transformed
  ∧ ((statsOf (finishLoad env s bars)).loaded = s.loaded
      ∨ (statsOf (finishLoad env s bars)).loaded ≤ bars.length) := by
  unfold finishLoad
  cases hb : bars.isEmpty
  · simpa [hb] using statsOf_loadStep env s bars
  · simp [statsOf]

theorem statsOf_runIncremental (env : RunEnv) (s : TickerStats)
    (valid : List MarketDataCreate) (i : Bool) :
    (statsOf (runIncremental env s valid i)).extracted = s.extracted
  ∧ (statsOf (runIncremental env s valid i)).transformed = s.transformed
  ∧ ((statsOf (runIncremental env s valid i)).loaded = s.loaded
      ∨ (statsOf (runIncremental env s valid i)).loaded ≤ valid.length) := by
  unfold runIncremental
  cases i
  · simpa using statsOf_finishLoad env s valid
  · cases hl : env.latest2 with
    | error m => simp [statsOf]
    | ok latestOpt =>
      cases latestOpt with
      | none => simpa using statsOf_finishLoad env s valid
      | some d =>
        have h := statsOf_finishLoad env s
          (valid.filter (fun b => toDays d ≤ toDays b.date_))
        refine ⟨by simpa using h.1, by simpa using h.2.1, ?_⟩
        rcases h.2.2 with h2 | h2
        · exact Or.inl (by simpa using h2)
        · exact Or.inr (by
            simpa using h2.trans (List.length_filter_le _ _))

theorem inv_runIncremental (env : RunEnv) (s : TickerStats)
    (valid : List MarketDataCreate) (i : Bool)
    (h0 : s.loaded = 0) (hts : valid.length ≤ s.transformed)
    (hse : s.transformed ≤ s.extracted) :
    (statsOf (runIncremental env s valid i)).loaded
        ≤ (statsOf (runIncremental env s valid i)).transformed
  ∧ (statsOf (runIncremental env s valid i)).transformed
        ≤ (statsOf (runIncremental env s valid i)).extracted
  ∧ (statsOf (runIncremental env s valid i)).extracted = s.extracted := by
  obtain ⟨hex, htr, hld⟩ := statsOf_runIncremental env s valid i
  refine ⟨?_, ?_, hex⟩
  · rw [htr]
    rcases hld with h | h <;> omega
  · rw [htr, hex]; exact hse

theorem statsOf_runExtract (env : RunEnv) (t : String) (i : Bool) :
    (statsOf (runExtract env t (initStats t) i)).loaded
        ≤ (statsOf (runExtract env t (initStats t) i)).transformed
  ∧ (statsOf (runExtract env t (initStats t) i)).transformed
        ≤ (statsOf (runExtract env t (initStats t) i)).extracted
  ∧ ((statsOf (runExtract env t (initStats t) i)).extracted = 0
      ∨ ∃ r p, env.response = Except.ok r ∧ fetch_daily_data r = some p
          ∧ (statsOf (runExtract env t (initStats t) i)).extracted
              = (getSeries p).length) := by
  cases hresp : env.response with
  | error m =>
    simp only [runExtract, hresp]
    exact ⟨by simp [statsOf, initStats], by simp [statsOf, initStats],
      Or.inl (by simp [statsOf, initStats])⟩
  | ok r =>
    cases hfetch : fetch_daily_data r with
    | none =>
      simp only [runExtract, hresp, hfetch]
      exact ⟨by simp [statsOf, initStats], by simp [statsOf, initStats],
        Or.inl (by simp [statsOf, initStats])⟩
    | some p =>
      have hlen : (transform_alpha_vantage_data t p).length
          ≤ (getSeries p).length := transform_length_le t p
      cases htd : (transform_alpha_vantage_data t p).isEmpty
      · cases hv : ((transform_alpha_vantage_data t p).filter
            (validate_data env.today)).isEmpty
        · simp only [runExtract, hresp, hfetch, htd, hv, Bool.false_eq_true,
            if_false]
          have h := inv_runIncremental env
            { initStats t with
              extracted := (getSeries p).length,
              transformed := (transform_alpha_vantage_data t p).length }
            ((transform_alpha_vantage_data t p).filter
              (validate_data env.today)) i
            (by simp [initStats]) (List.length_filter_le _ _) hlen
          exact ⟨h.1, h.2.1, Or.inr ⟨r, p, rfl, hfetch, h.2.2⟩⟩
        · simp only [runExtract, hresp, hfetch, htd, hv, Bool.false_eq_true,
            if_false, if_true]
          exact ⟨by simp [statsOf, initStats],
            by simpa [statsOf, initStats] using hlen,
            Or.inr ⟨r, p, rfl, hfetch, by simp [statsOf]⟩⟩
      · simp only [runExtract, hresp, hfetch, htd, if_true]
        exact ⟨by simp [statsOf, initStats], by simp [statsOf, initStats],
          Or.inr ⟨r, p, rfl, hfetch, by simp [statsOf]⟩⟩

/-- C10 (confirmed).  In every statistics record returned by
`run_for_ticker` — every terminal status, error runs included, where
later counters keep the values they had when the exception escaped —
the counters are monotone along the pipeline:
`loaded ≤ transformed ≤ extracted`, and `extracted` is either still `0`
(skip path, or failure before the payload was read) or exactly the
number of entries in the raw payload's time-series map. -/
theorem counters_monotone (env : RunEnv) (t : String) (f i : Bool) :
    (run_for_ticker env t f i).loaded ≤ (run_for_ticker env t f i).transformed
  ∧ (run_for_ticker env t f i).transformed
      ≤ (run_for_ticker env t f i).extracted
  ∧ ((run_for_ticker env t f i).extracted = 0
      ∨ ∃ r p, env.response = Except.ok r ∧ fetch_daily_data r = some p
          ∧ (run_for_ticker env t f i).extracted = (getSeries p).length) := by
  have he := run_for_ticker_eq_statsOf env t f i
  rw [he.1, he.2.1, he.2.2]
  unfold runBody
  cases hc : (i && !f)
  · simpa [hc] using statsOf_runExtract env t i
  · simp only [hc, if_true]
    cases hl : env.latest1 with
    | error m => simp [statsOf, initStats]
    | ok l =>
      cases hsk : (should_skip_decision l env.today).1
      · simpa [hsk] using statsOf_runExtract env t i
      · simp [hsk, statsOf, initStats]

/-! ## C5: idempotent upsert keyed on `(ticker, date)` -/

theorem keyMatches_iff (t : String) (d : Date) (r : MarketDataRow) :
    keyMatches t d r = true ↔ (r.ticker = t ∧ r.date_ = d) := by
  simp [keyMatches]

theorem conflictUpdate_key (now : Nat) (b : MarketDataCreate)
    (r : MarketDataRow) :
    (conflictUpdate now b r).ticker = r.ticker
  ∧ (conflictUpdate now b r).date_ = r.date_ := by
  unfold conflictUpdate
  split_ifs <;> simp

theorem keyMatches_conflictUpdate (t : String) (d : Date) (now : Nat)
    (b : MarketDataCreate) (r : MarketDataRow) :
    keyMatches t d (conflictUpdate now b r) = keyMatches t d r := by
  have h := conflictUpdate_key now b r
  simp [keyMatches, h.1, h.2]

theorem rowsFor_map_conflictUpdate (now : Nat) (b : MarketDataCreate)
    (store : List MarketDataRow) (t : String) (d : Date) :
    rowsFor (store.map (conflictUpdate now b)) t d
      = (rowsFor store t d).map (conflictUpdate now b) := by
  unfold rowsFor
  rw [List.filter_map]
  congr 1
  apply List.filter_congr
  intro r _
  exact keyMatches_conflictUpdate t d now b r

theorem rowsFor_eq_nil_of_any_false (store : List MarketDataRow)
    (t : String) (d : Date) (h : store.any (keyMatches t d) = false) :
    rowsFor store t d = [] := by
  unfold rowsFor
  rw [List.filter_eq_nil]
  intro a ha
  rw [List.any_eq_false] at h
  simpa using h a ha

theorem rowsFor_length_le_one (store : List MarketDataRow)
    (hu : keysUnique store) (t : String) (d : Date) :
    (rowsFor store t d).length ≤ 1 := by
  induction store with
  | nil => simp [rowsFor]
  | cons r rest ih =>
    rw [keysUnique, List.pairwise_cons] at hu
    unfold rowsFor
    rw [List.filter_cons]
    by_cases hm : keyMatches t d r = true
    · have hnil : rest.filter (keyMatches t d) = [] := by
        rw [List.filter_eq_nil]
        intro a ha hma
        have h1 := (keyMatches_iff t d r).mp hm
        have h2 := (keyMatches_iff t d a).mp hma
        exact hu.1 a ha ⟨h1.1.trans h2.1.symm, h1.2.trans h2.2.symm⟩
      simp [hm, hnil]
    · simp only [hm, Bool.false_eq_true, if_false]
      exact ih hu.2

theorem upsert_insert_case (now : Nat) (store : List MarketDataRow)
    (b : MarketDataCreate)
    (h : store.any (keyMatches b.ticker b.date_) = false) :
    upsert now store b
      = store ++ [⟨store.length, b.ticker, b.date_, b.open_price,
          b.high_price, b.low_price, b.close_price, b.volume, now, now⟩] := by
  simp [upsert, h]

theorem upsert_update_case (now : Nat) (store : List MarketDataRow)
    (b : MarketDataCreate)
    (h : store.any (keyMatches b.ticker b.date_) = true) :
    upsert now store b = store.map (conflictUpdate now b) := by
  simp [upsert, h]

/-- After one upsert of `b`, the store holds exactly one row under
`b`'s key: it carries `b`'s price/volume fields and `updated_at = now`,
and it either is a fresh insert (both timestamps `now`, fresh id) or
keeps the pre-existing row's `id` and `created_at`. -/
theorem rowsFor_upsert_self (now : Nat) (store : List MarketDataRow)
    (b : MarketDataCreate) (hu : keysUnique store) :
    ∃ r, rowsFor (upsert now store b) b.ticker b.date_ = [r]
      ∧ r.open_price = b.open_price ∧ r.high_price = b.high_price
      ∧ r.low_price = b.low_price ∧ r.close_price = b.close_price
      ∧ r.volume = b.volume ∧ r.updated_at = now
      ∧ ((rowsFor store b.ticker b.date_ = [] ∧ r.created_at = now
            ∧ r.id = store.length)
        ∨ ∃ r0, rowsFor store b.ticker b.date_ = [r0]
            ∧ r.created_at = r0.created_at ∧ r.id = r0.id) := by
  cases ha : store.any (keyMatches b.ticker b.date_)
  · have hnil := rowsFor_eq_nil_of_any_false store b.ticker b.date_ ha
    rw [upsert_insert_case now store b ha]
    refine ⟨⟨store.length, b.ticker, b.date_, b.open_price, b.high_price,
      b.low_price, b.close_price, b.volume, now, now⟩, ?_, rfl, rfl, rfl,
      rfl, rfl, rfl, Or.inl ⟨hnil, rfl, rfl⟩⟩
    unfold rowsFor at hnil ⊢
    rw [List.filter_append, hnil]
    simp [keyMatches]
  · obtain ⟨x, hx, hmx⟩ := List.any_eq_true.mp ha
    have hxin : x ∈ rowsFor store b.ticker b.date_ :=
      List.mem_filter.mpr ⟨hx, hmx⟩
    have hle := rowsFor_length_le_one store hu b.ticker b.date_
    have h1 : rowsFor store b.ticker b.date_ = [x] := by
      cases hrl : rowsFor store b.ticker b.date_ with
      | nil => rw [hrl] at hxin; cases hxin
      | cons y ys =>
        rw [hrl] at hle hxin
        have hys : ys = [] := by
          simp only [List.length_cons] at hle
          exact List.eq_nil_of_length_eq_zero (by omega)
        subst hys
        simp at hxin
        subst hxin
        rfl
    rw [upsert_update_case now store b ha, rowsFor_map_conflictUpdate, h1]
    refine ⟨conflictUpdate now b x, rfl, ?_, ?_, ?_, ?_, ?_, ?_,
      Or.inr ⟨x, rfl, ?_, ?_⟩⟩ <;> simp [conflictUpdate, hmx]

theorem keysUnique_upsert (now : Nat) (store : List MarketDataRow)
    (b : MarketDataCreate) (hu : keysUnique store) :
    keysUnique (upsert now store b) := by
  cases ha : store.any (keyMatches b.ticker b.date_)
  · rw [upsert_insert_case now store b ha]
    unfold keysUnique at hu ⊢
    rw [List.pairwise_append]
    refine ⟨hu, by simp, ?_⟩
    intro a hain b' hb' hcon
    simp only [List.mem_singleton] at hb'
    subst hb'
    rw [List.any_eq_false] at ha
    have := ha a hain
    rw [keyMatches_iff] at this
    exact this ⟨hcon.1, hcon.2⟩
  · rw [upsert_update_case now store b ha]
    unfold keysUnique at hu ⊢
    rw [List.pairwise_map]
    refine hu.imp ?_
    intro x y hxy hcon
    apply hxy
    have kx := conflictUpdate_key now b x
    have ky := conflictUpdate_key now b y
    rw [kx.1, kx.2, ky.1, ky.2] at hcon
    exact hcon

/-- C5 (confirmed; storage engine and timestamp mixin modelled from the
spec).  Upserting two bars with the same `(ticker, date)` key into any
store satisfying the unique constraint leaves exactly one row for that
key; the second load's open/high/low/close/volume win, `updated_at` is
refreshed to the second load's time, `id` and `created_at` are the ones
fixed by the first upsert, the store's row count does not grow on the
re-submission, and the unique constraint is preserved. -/
theorem upsert_idempotent_per_key (store : List MarketDataRow)
    (b1 b2 : MarketDataCreate) (t1 t2 : Nat) (hu : keysUnique store)
    (ht : b2.ticker = b1.ticker) (hd : b2.date_ = b1.date_) :
    ∃ r1 r2 : MarketDataRow,
      rowsFor (upsert t1 store b1) b1.ticker b1.date_ = [r1]
    ∧ rowsFor (upsert t2 (upsert t1 store b1) b2) b1.ticker b1.date_ = [r2]
    ∧ r2.open_price = b2.open_price ∧ r2.high_price = b2.high_price
    ∧ r2.low_price = b2.low_price ∧ r2.close_price = b2.close_price
    ∧ r2.volume = b2.volume
    ∧ r2.updated_at = t2 ∧ r2.created_at = r1.created_at ∧ r2.id = r1.id
    ∧ (upsert t2 (upsert t1 store b1) b2).length
        = (upsert t1 store b1).length
    ∧ keysUnique (upsert t2 (upsert t1 store b1) b2) := by
  obtain ⟨r1, hr1, _, _, _, _, _, _, _⟩ :=
    rowsFor_upsert_self t1 store b1 hu
  have hu1 := keysUnique_upsert t1 store b1 hu
  obtain ⟨r2, hr2, ho2, hh2, hlo2, hc2, hv2, hup2, hcr2⟩ :=
    rowsFor_upsert_self t2 (upsert t1 store b1) b2 hu1
  rw [ht, hd] at hr2 hcr2
  have hany : (upsert t1 store b1).any (keyMatches b2.ticker b2.date_)
      = true := by
    rw [ht, hd, List.any_eq_true]
    have hmem : r1 ∈ rowsFor (upsert t1 store b1) b1.ticker b1.date_ := by
      rw [hr1]; exact List.mem_singleton_self r1
    exact ⟨r1, (List.mem_filter.mp hmem).1, (List.mem_filter.mp hmem).2⟩
  rcases hcr2 with ⟨hnil, _, _⟩ | ⟨r0, hr0, hcr, hid⟩
  · rw [hr1] at hnil; cases hnil
  · have hr01 : r1 = r0 := by
      rw [hr1] at hr0
      simpa using hr0
    subst hr01
    refine ⟨r1, r2, hr1, hr2, ho2, hh2, hlo2, hc2, hv2, hup2, hcr, hid,
      ?_, keysUnique_upsert t2 (upsert t1 store b1) b2 hu1⟩
    rw [upsert_update_case t2 (upsert t1 store b1) b2 hany]
    simp

/-- Witness for C5: two loads of the `(AAPL, 2024-01-15)` key into the
empty store, the second with different prices. -/
theorem upsert_idempotent_per_key_witness :
    keysUnique []
  ∧ ∃ r1 r2 : MarketDataRow,
      rowsFor (upsert 1 []
          ⟨"AAPL", ⟨2024, 1, 15⟩, ⟨15000, 2⟩, ⟨15500, 2⟩, ⟨14900, 2⟩,
           ⟨15300, 2⟩, 1000000⟩) "AAPL" ⟨2024, 1, 15⟩ = [r1]
    ∧ rowsFor (upsert 2 (upsert 1 []
          ⟨"AAPL", ⟨2024, 1, 15⟩, ⟨15000, 2⟩, ⟨15500, 2⟩, ⟨14900, 2⟩,
           ⟨15300, 2⟩, 1000000⟩)
          ⟨"AAPL", ⟨2024, 1, 15⟩, ⟨15100, 2⟩, ⟨15600, 2⟩, ⟨15000, 2⟩,
           ⟨15400, 2⟩, 1100000⟩) "AAPL" ⟨2024, 1, 15⟩ = [r2]
    ∧ r2.open_price = ⟨15100, 2⟩ ∧ r2.high_price = ⟨15600, 2⟩
    ∧ r2.low_price = ⟨15000, 2⟩ ∧ r2.close_price = ⟨15400, 2⟩
    ∧ r2.volume = 1100000
    ∧ r2.updated_at = 2 ∧ r2.created_at = r1.created_at ∧ r2.id = r1.id
    ∧ (upsert 2 (upsert 1 []
          ⟨"AAPL", ⟨2024, 1, 15⟩, ⟨15000, 2⟩, ⟨15500, 2⟩, ⟨14900, 2⟩,
           ⟨15300, 2⟩, 1000000⟩)
          ⟨"AAPL", ⟨2024, 1, 15⟩, ⟨15100, 2⟩, ⟨15600, 2⟩, ⟨15000, 2⟩,
           ⟨15400, 2⟩, 1100000⟩).length
        = (upsert 1 []
          ⟨"AAPL", ⟨2024, 1, 15⟩, ⟨15000, 2⟩, ⟨15500, 2⟩, ⟨14900, 2⟩,
           ⟨15300, 2⟩, 1000000⟩).length
    ∧ keysUnique (upsert 2 (upsert 1 []
          ⟨"AAPL", ⟨2024, 1, 15⟩, ⟨15000, 2⟩, ⟨15500, 2⟩, ⟨14900, 2⟩,
           ⟨15300, 2⟩, 1000000⟩)
          ⟨"AAPL", ⟨2024, 1, 15⟩, ⟨15100, 2⟩, ⟨15600, 2⟩, ⟨15000, 2⟩,
           ⟨15400, 2⟩, 1100000⟩) :=
  ⟨List.Pairwise.nil,
   upsert_idempotent_per_key []
     ⟨"AAPL", ⟨2024, 1, 15⟩, ⟨15000, 2⟩, ⟨15500, 2⟩, ⟨14900, 2⟩,
      ⟨15300, 2⟩, 1000000⟩
     ⟨"AAPL", ⟨2024, 1, 15⟩, ⟨15100, 2⟩, ⟨15600, 2⟩, ⟨15000, 2⟩,
      ⟨15400, 2⟩, 1100000⟩
     1 2 List.Pairwise.nil rfl rfl⟩

end ETL
